import Mathlib

/-!
Formal model of the two scripts of this repository:

* `format_kaggle_submission.py` — harvests per-method Game24 evaluation
  results (JSON / JSON-lines payloads), extracts candidate solutions with
  confidences, aggregates them per problem, and emits a Kaggle submission
  table.
* `validate_setup.py` — checks the presence of expected files, directories
  and importable modules and runs one smoke invocation of the external
  puzzle judge.

Python values appearing in the scripts are modelled as follows: JSON
documents become the inductive type `Json`; dictionaries become
association lists looked up by first key match (Python dicts cannot hold
duplicate keys, so first-match lookup is exact); floating-point
confidences become `Rat` (every claim about them is purely
order-theoretic, so the ordered-field structure is all that is used);
fallible Python code (uncaught exceptions such as `ZeroDivisionError`)
becomes `Option`/`Except`.
-/

/-- Model of a parsed JSON value (the payloads handled by
`format_kaggle_submission.py`).  Numbers are modelled as rationals:
Python distinguishes int and float, but the scripts only compare and
convert them, which `Rat` captures. -/
inductive Json where
  | null : Json
  | bool (b : Bool) : Json
  | num (q : Rat) : Json
  | str (s : String) : Json
  | arr (items : List Json) : Json
  | obj (fields : List (String × Json)) : Json
deriving Repr

/-- Association-list lookup, modelling Python dict access `d[k]` /
`k in d`.  Python dicts have unique keys, so first-match lookup agrees
with dict semantics. -/
def alookup {α : Type} (k : String) : List (String × α) → Option α
  | [] => none
  | (k₁, v) :: rest => if k₁ = k then some v else alookup k rest

mutual

/-- Model of Python `repr` on a JSON value, used by `str()` on container
values.  String quoting is modelled (Python quotes with `\x27`); escaping
of characters inside the string is not, and the rendering of numbers
follows `Rat`'s — no claim evaluates a rendering of a non-string value,
so only totality of this function matters. -/
def pyRepr : Json → String
  | .null => "None"
  | .bool b => if b then "True" else "False"
  | .num q => toString q
  | .str s => "\x27" ++ s ++ "\x27"
  | .arr items => "[" ++ pyReprList items ++ "]"
  | .obj fields => "\x7b" ++ pyReprFields fields ++ "\x7d"

/-- Comma-separated `repr` of the elements of a Python list. -/
def pyReprList : List Json → String
  | [] => ""
  | [x] => pyRepr x
  | x :: xs => pyRepr x ++ ", " ++ pyReprList xs

/-- Comma-separated `repr` of the items of a Python dict. -/
def pyReprFields : List (String × Json) → String
  | [] => ""
  | [(k, v)] => "\x27" ++ k ++ "\x27: " ++ pyRepr v
  | (k, v) :: xs => "\x27" ++ k ++ "\x27: " ++ pyRepr v ++ ", " ++ pyReprFields xs

end

/-- Model of Python `str()` applied to a JSON value: a string is returned
unchanged, any other value is rendered (Python renders via `repr`-like
formatting for containers). -/
def pyStr : Json → String
  | .str s => s
  | v => pyRepr v

/-- Model of Python `str.strip()` with no argument: removes leading and
trailing whitespace characters.  (Python also strips `\v` and `\f`,
which `Char.isWhitespace` does not recognise; no string in any claim
contains them.) -/
def pyStrip (s : String) : String :=
  ⟨((s.data.dropWhile Char.isWhitespace).reverse.dropWhile Char.isWhitespace).reverse⟩

/-- Model of Python `float()` applied to a JSON value.  `float` of a
number is itself; Python's `bool` is a subclass of `int`, so
`isinstance(True, (int, float))` holds and `float(True) = 1.0`.  `float`
of a string parses a numeral or raises `ValueError`, and of any other
value raises `TypeError`; the scripts never reach those cases under any
claim, and both are modelled as the failure `none`. -/
def pyFloat : Json → Option Rat
  | .num q => some q
  | .bool b => some (if b then 1 else 0)
  | _ => none

/-! ## Result Loader (`load_evaluation_results`, lines 16–50)

A method's result subdirectory is modelled by the parse outcomes of its
files, in directory-listing order: each `*.json` file either parses to a
single `Json` document (`some`) or raises `json.JSONDecodeError`
(`none`); each `*.jsonl` file is a list of per-line parse outcomes (a
`none` line means `json.loads(line.strip())` raised, which the source
catches at the file level, aborting that whole file). -/

/-- Parse outcomes of the files of one method's result directory, in
directory-listing order. -/
structure MethodDir where
  jsonFiles : List (Option Json)
  jsonlFiles : List (List (Option Json))

/-- The fixed method list of `load_evaluation_results` (line 20). -/
def methods : List String := ["mcts_results", "cot_sc_results", "cot_greedy_results"]

/-- The first `*.json` file that parses as a single document, in listing
order (lines 26–34: `break` on success, `continue` on decode error). -/
def firstJson : List (Option Json) → Option Json
  | [] => none
  | some v :: _ => some v
  | none :: rest => firstJson rest

/-- Parse of one `*.jsonl` file: every line must parse, the documents are
collected in order; a single bad line aborts the whole file (the
`try` at line 39 wraps the per-line loop). -/
def parseJsonlFile : List (Option Json) → Option (List Json)
  | [] => some []
  | none :: _ => none
  | some v :: rest => (parseJsonlFile rest).map (fun vs => v :: vs)

/-- The first `*.jsonl` file that fully parses, in listing order
(lines 37–48). -/
def firstJsonl : List (List (Option Json)) → Option Json
  | [] => none
  | f :: rest =>
    match parseJsonlFile f with
    | some vs => some (.arr vs)
    | none => firstJsonl rest

/-- Payload loaded for one existing method directory: first parsable
`*.json` document, else first fully-parsable `*.jsonl` file, else
nothing. -/
def loadMethodDir (d : MethodDir) : Option Json :=
  match firstJson d.jsonFiles with
  | some v => some v
  | none => firstJsonl d.jsonlFiles

/-- Model of `load_evaluation_results` (lines 16–50).  The results root
is modelled as a map from method name to its directory's parse outcomes
(`none` when `method_dir.exists()` is false).  Returns the method →
payload association list in method order, which is the insertion order
of the Python dict `results`. -/
def load_evaluation_results (dirs : String → Option MethodDir) : List (String × Json) :=
  methods.filterMap (fun m => ((dirs m).bind loadMethodDir).map (fun v => (m, v)))

/-! ## Solution Extractor (`extract_best_solution`, `get_solution_confidence`,
`extract_problem_solutions`, lines 53–131) -/

/-- The fixed solution-field priority list of `extract_best_solution`
(line 94). -/
def solution_keys : List String := ["answer", "prediction", "output", "best_answer", "solution"]

/-- The fixed confidence-field priority list of
`get_solution_confidence` (line 115). -/
def confidence_keys : List String := ["confidence", "score", "value", "probability"]

/-- The loop of `extract_best_solution` (lines 96–101): the first key
present whose value is a non-empty list yields `str` of its first
element, a string value is returned directly; a present key of any other
shape (number, empty list, object, …) matches neither `isinstance`
branch and the loop moves to the next key. -/
def solutionFromKeys (item : List (String × Json)) : List String → Option String
  | [] => none
  | k :: ks =>
    match alookup k item with
    | some (.arr (v :: _)) => some (pyStr v)
    | some (.str s) => some s
    | some _ => solutionFromKeys item ks
    | none => solutionFromKeys item ks

/-- Model of `extract_best_solution` (lines 90–108).  The `method`
argument is unused, as in the source. -/
def extract_best_solution (item : List (String × Json)) (method : String) : String :=
  match solutionFromKeys item solution_keys with
  | some s => s
  | none =>
    match alookup "outputs" item with
    | some (.arr (v :: _)) => pyStr v
    | _ => "No solution found"

/-- The loop of `get_solution_confidence` (lines 117–122).  Result
`some r` means the loop returned with conversion outcome `r` (`r = none`
is an uncaught conversion error); `none` means no key matched and the
method default applies.  A present key whose value is a string, null,
object or empty list matches neither `isinstance` branch and the loop
continues. -/
def confidenceFromKeys (item : List (String × Json)) : List String → Option (Option Rat)
  | [] => none
  | k :: ks =>
    match alookup k item with
    | some (.num q) => some (some q)
    | some (.bool b) => some (some (if b then 1 else 0))
    | some (.arr (v :: _)) => some (pyFloat v)
    | some _ => confidenceFromKeys item ks
    | none => confidenceFromKeys item ks

/-- The method-default confidence table of `get_solution_confidence`
(lines 125–131); `.get(method, 0.5)` becomes chained comparisons. -/
def methodDefaultConfidence (method : String) : Rat :=
  if method = "mcts_results" then 0.8
  else if method = "cot_sc_results" then 0.7
  else if method = "cot_greedy_results" then 0.6
  else 0.5

/-- Model of `get_solution_confidence` (lines 111–131).  `none` models an
uncaught exception from `float()` (unreachable under every claim). -/
def get_solution_confidence (item : List (String × Json)) (method : String) : Option Rat :=
  match confidenceFromKeys item confidence_keys with
  | some r => r
  | none => some (methodDefaultConfidence method)

/-- One candidate solution produced by the extractor (the dict built at
lines 66–71 / 80–85). -/
structure CandidateSolution where
  problem : String
  solution : String
  method : String
  confidence : Rat
deriving Repr, DecidableEq

/-- Processing of one record of a method's payload (the body of
the per-item loops at lines 60–71 and 75–85): records lacking a
`"question"` field are skipped; `item["question"].strip()` requires the
field to be a string (Python would raise `AttributeError` otherwise —
modelled as the error `Except.error`).  A record that is not a JSON
object would make the Python membership test `"question" in item`
degenerate (list membership / substring test / `TypeError`); no claim
constructs one, and it is modelled as an error. -/
def candidateOfItem (method : String) (it : Json) : Except String (Option CandidateSolution) :=
  match it with
  | .obj fields =>
    match alookup "question" fields with
    | none => .ok none
    | some (.str q) =>
      match get_solution_confidence fields method with
      | some conf =>
        .ok (some ⟨pyStrip q, extract_best_solution fields method, method, conf⟩)
      | none => .error "TypeError: float()"
    | some _ => .error "AttributeError: strip"
  | _ => .error "TypeError: membership test on a non-mapping record"

/-- Candidates of a list of records, in order. -/
def candidatesOfItems (method : String) : List Json → Except String (List CandidateSolution)
  | [] => .ok []
  | it :: rest => do
    let c ← candidateOfItem method it
    let cs ← candidatesOfItems method rest
    match c with
    | some c₁ => .ok (c₁ :: cs)
    | none => .ok cs

/-- Normalisation of one method's payload to its record sequence
(lines 59 and 72–74): a list payload is used as is; a dict payload is
unwrapped through its `"results"` field when that field is present (a
non-sequence `"results"` value would be iterated by the `for` at line 75,
raising — modelled as an error), and contributes nothing when absent;
any other payload shape matches neither `isinstance` test and is
skipped.

The source line 72 reads `elif isinstance data, dict):`, which is a
Python syntax error (a missing opening parenthesis); this definition
follows the evident intent `elif isinstance(data, dict):`, which the
surrounding code and the module docstring make unambiguous. -/
def itemsOfPayload (data : Json) : Except String (List Json) :=
  match data with
  | .arr items => .ok items
  | .obj fields =>
    match alookup "results" fields with
    | some (.arr items) => .ok items
    | some _ => .error "TypeError: iteration over a non-sequence results field"
    | none => .ok []
  | _ => .ok []

/-- Model of `extract_problem_solutions` (lines 53–87), walking the
method → payload pairs in insertion order.  See `itemsOfPayload` for the
treatment of the syntax error at source line 72. -/
def extract_problem_solutions : List (String × Json) → Except String (List CandidateSolution)
  | [] => .ok []
  | (method, data) :: rest => do
    let items ← itemsOfPayload data
    let cs ← candidatesOfItems method items
    let csRest ← extract_problem_solutions rest
    .ok (cs ++ csRest)

/-! ## Aggregator (`aggregate_solutions`, lines 134–161) -/

/-- One grouped entry of `problem_map` (the dict appended at
lines 147–151). -/
structure GroupedSolution where
  solution : String
  confidence : Rat
  method : String
deriving Repr, DecidableEq

/-- Appends one candidate to `problem_map` (lines 144–151): a new
problem key is inserted at the end (Python dict insertion order), an
existing key has the entry appended to its list. -/
def insertCandidate (acc : List (String × List GroupedSolution)) (c : CandidateSolution) :
    List (String × List GroupedSolution) :=
  match acc with
  | [] => [(c.problem, [⟨c.solution, c.confidence, c.method⟩])]
  | (p, cs) :: rest =>
    if p = c.problem then (p, cs ++ [⟨c.solution, c.confidence, c.method⟩]) :: rest
    else (p, cs) :: insertCandidate rest c

/-- The grouping loop of `aggregate_solutions` (lines 139–151). -/
def groupByProblem (l : List CandidateSolution) : List (String × List GroupedSolution) :=
  l.foldl insertCandidate []

/-- Python's `max(solutions, key=lambda x: x["confidence"])` (line 158):
iterates left to right and replaces the current best only on a strictly
greater key, so the first occurrence of the maximum wins. -/
def pickBest (b x : GroupedSolution) : GroupedSolution :=
  if b.confidence < x.confidence then x else b

/-- `max` over a candidate group; `none` for an empty group, where Python
`max` would raise (the grouping never produces an empty group). -/
def maxByConfidence : List GroupedSolution → Option GroupedSolution
  | [] => none
  | h :: t => some (t.foldl pickBest h)

/-- Model of `aggregate_solutions` (lines 134–161): for each problem in
first-seen order, the solution of the group's confidence maximum. -/
def aggregate_solutions (l : List CandidateSolution) : List (String × String) :=
  (groupByProblem l).filterMap
    (fun pc => (maxByConfidence pc.2).map (fun b => (pc.1, b.solution)))

/-! ## Submission Builder (`create_kaggle_submission`, lines 184–223)

The canonical benchmark table (`load_game24_test_data`) is modelled as a
list of rows, each row an ordered association list from column name to
the cell's string form (`str(cell)` is applied by the source before any
use, so cells are modelled as the resulting strings).  `row.iloc[i]`
is positional access into the row. -/

/-- One emitted submission row (the dict at lines 197–201). -/
structure SubmissionRow where
  id : Nat
  problem : String
  solution : String
deriving Repr, DecidableEq

/-- The problem string of one canonical row (lines 193–204): the
`"Puzzles"` column when present, else the second column, else the first;
`none` models the `IndexError` Python raises on a zero-column row (a CSV
table always has at least one column).  `.strip()` becomes
`pyStrip`. -/
def rowProblem (row : List (String × String)) : Option String :=
  match alookup "Puzzles" row with
  | some v => some (pyStrip v)
  | none =>
    match row with
    | [] => none
    | [c] => some (pyStrip c.2)
    | _ :: c :: _ => some (pyStrip c.2)

/-- The row loop of `create_kaggle_submission` (lines 190–211), carrying
the running index `idx`. -/
def buildSubmissionRows (final : List (String × String)) :
    Nat → List (List (String × String)) → Option (List SubmissionRow)
  | _, [] => some []
  | idx, row :: rest =>
    match rowProblem row with
    | none => none
    | some p =>
      (buildSubmissionRows final (idx + 1) rest).map
        (fun rs => ⟨idx, p, (alookup p final).getD "No solution found"⟩ :: rs)

/-- Model of the row-building part of `create_kaggle_submission`
(lines 184–217): one row per canonical row, in order, with `iterrows`
indices starting at 0. -/
def create_kaggle_submission (final : List (String × String))
    (table : List (List (String × String))) : Option (List SubmissionRow) :=
  buildSubmissionRows final 0 table

/-- Model of line 221's `submission_df['solution']`: the DataFrame is
built at line 214 from the list of per-row dicts, so with at least one
row it has the columns `id`, `problem`, `solution` and the column access
yields the rows' solutions in order; but `pd.DataFrame([])` built from
an empty list has no columns at all, and the column access raises
`KeyError`. -/
def solutionColumn (rows : List SubmissionRow) : Except String (List String) :=
  match rows with
  | [] => .error "KeyError: solution"
  | _ => .ok (rows.map (fun r => r.solution))

/-- Model of the statistics step of `create_kaggle_submission`
(lines 220–223): first the `submission_df['solution']` access of
line 221 (see `solutionColumn`), then `solved_count/total_count*100`
with Python's true division, which has no zero guard and would raise
`ZeroDivisionError` when `total_count = 0` — a branch kept in the model
exactly as in the source, though `total_count` is zero only for the
empty row list, on which the column access has already raised. -/
def submission_summary (rows : List SubmissionRow) : Except String Rat :=
  match solutionColumn rows with
  | .error e => .error e
  | .ok col =>
    if rows.length = 0 then .error "ZeroDivisionError"
    else
      .ok (((col.filter (fun s => s ≠ "No solution found")).length : Rat) /
        (rows.length : Rat) * 100)

/-! ## Formatter entry point (`main`, lines 226–258) -/

/-- Observable effects of one run of the formatter's `main`, given the
loader's output and the canonical table. -/
structure FormatterEffects where
  printedNoResults : Bool
  madeOutputDir : Bool
  wroteRows : Option (List SubmissionRow)
  exitCode : Nat
deriving Repr, DecidableEq

/-- Model of the formatter's `main` (lines 226–258), as a function of the
loader's output and the canonical table.  An empty results dict is falsy,
so `main` prints the no-results message and returns before
`os.makedirs` (line 253) and before any file is written; otherwise the
output directory is created, the rows are written by `to_csv`
(line 217), and the statistics step runs afterwards — an uncaught
exception anywhere leaves a non-zero process exit status, modelled as
exit code 1. -/
def formatter_main (loaded : List (String × Json))
    (table : List (List (String × String))) : FormatterEffects :=
  match loaded with
  | [] => ⟨true, false, none, 0⟩
  | _ =>
    match extract_problem_solutions loaded with
    | .error _ => ⟨false, false, none, 1⟩
    | .ok cands =>
      let final := aggregate_solutions cands
      match create_kaggle_submission final table with
      | none => ⟨false, true, none, 1⟩
      | some rows =>
        match submission_summary rows with
        | .ok _ => ⟨false, true, some rows, 0⟩
        | .error _ => ⟨false, true, some rows, 1⟩

/-! ## Setup Validator (`validate_setup.py`) -/

/-- Outcomes of the external world probed by `validate_setup.py`:
existence of each checked path, importability of each module, and the
smoke invocation of `judge_correct` (`none` models the call raising,
which line 119 catches). -/
structure SetupEnv where
  policyDir : Bool
  valueDir : Bool
  ct2Dir : Bool
  policyCfg : Bool
  valueCfg : Bool
  ct2Cfg : Bool
  setupScript : Bool
  evalScript : Bool
  formatterScript : Bool
  game24Csv : Bool
  game24EnvPy : Bool
  torchOk : Bool
  ctranslate2Ok : Bool
  transformersOk : Bool
  game24ImportOk : Bool
  smoke : Option Bool
deriving Repr, DecidableEq

/-- The file and directory checklist of `validate_setup.py`
(lines 36–52), in source order, each entry carrying its printed
description and its outcome.  Every entry is evaluated: the source
accumulates with `all_good &= check(...)`, whose right-hand side is
evaluated unconditionally. -/
def fileCheckList (e : SetupEnv) : List (String × Bool) :=
  [("Policy Model Directory", e.policyDir),
   ("Value Model Directory", e.valueDir),
   ("CT2 Cache Directory", e.ct2Dir),
   ("Policy Config", e.policyCfg),
   ("Value Config", e.valueCfg),
   ("CT2 Config", e.ct2Cfg),
   ("Setup Script", e.setupScript),
   ("Evaluation Script", e.evalScript),
   ("Submission Formatter", e.formatterScript),
   ("Game24 Test Dataset", e.game24Csv),
   ("Game24 Environment", e.game24EnvPy)]

/-- The import checklist of `validate_setup.py` (lines 67–93), in source
order; each import is wrapped in its own `try`/`except ImportError`, so
every entry is evaluated once this block is reached. -/
def importCheckList (e : SetupEnv) : List (String × Bool) :=
  [("PyTorch", e.torchOk),
   ("CTranslate2", e.ctranslate2Ok),
   ("Transformers", e.transformersOk),
   ("Game24 environment", e.game24ImportOk)]

/-- Trace of one run of the validator's `main`: which checks were
evaluated (with their printed pass/fail outcome), whether the smoke test
block ran, and the process exit code. -/
structure ValidatorTrace where
  fileChecks : List (String × Bool)
  importChecks : List (String × Bool)
  smokeRan : Bool
  exitCode : Nat
deriving Repr, DecidableEq

/-- Model of the validator's `main` (lines 29–125).  All file checks are
evaluated first; if any failed, `main` returns 1 at line 63 without
reaching the import block.  Otherwise all four imports are attempted; if
any failed, `main` returns 1 at line 123 without the smoke test.
Otherwise the smoke test runs — its outcome (the judge returning `False`,
or raising, caught at line 119) is printed but `main` falls through to
`return 0` at line 125 regardless. -/
def validator_main (e : SetupEnv) : ValidatorTrace :=
  let files := fileCheckList e
  if files.all (fun c => c.2) then
    let imports := importCheckList e
    if imports.all (fun c => c.2) then
      ⟨files, imports, true, 0⟩
    else
      ⟨files, imports, false, 1⟩
  else
    ⟨files, [], false, 1⟩

/-! ## Concrete scenarios used in the proofs below -/

/-- Conversion of a `CandidateSolution` to the per-group record appended
by the aggregator at lines 147–151. -/
def toGrouped (c : CandidateSolution) : GroupedSolution :=
  ⟨c.solution, c.confidence, c.method⟩

/-- The candidates sharing problem `p`, in insertion order, as the
aggregator's group records: the group `problem_map[p]` built by
lines 139–151. -/
def groupedCandidates (l : List CandidateSolution) (p : String) : List GroupedSolution :=
  (l.filter (fun c => c.problem = p)).map toGrouped

/-- Three candidates, the first two sharing a problem with exactly tied
confidences. -/
def aggCands : List CandidateSolution :=
  [⟨"1 1 4 6", "(6 - 4) * (1 + 1)", "mcts_results", 0.7⟩,
   ⟨"1 1 4 6", "(1 + 1) * (6 - 4)", "cot_sc_results", 0.7⟩,
   ⟨"2 2 2 2", "No solution found", "cot_greedy_results", 0.9⟩]

/-- An environment where every path exists and every import succeeds,
but the smoke invocation of `judge_correct` returns `False`. -/
def smokeFailEnv : SetupEnv :=
  ⟨true, true, true, true, true, true, true, true, true, true, true,
   true, true, true, true, some false⟩

/-- An environment where the policy model directory (the first checklist
entry) is missing and everything else is fine. -/
def missingDirEnv : SetupEnv :=
  ⟨false, true, true, true, true, true, true, true, true, true, true,
   true, true, true, true, some true⟩

/-- An environment where every check passes and the judge returns
`True`. -/
def allGoodEnv : SetupEnv :=
  ⟨true, true, true, true, true, true, true, true, true, true, true,
   true, true, true, true, some true⟩

/-- A method directory whose first `*.json` file is malformed and whose
second parses. -/
def sampleJsonDir : MethodDir := ⟨[none, some (Json.str "ok")], []⟩

/-- A method directory with no parsable `*.json` file, whose first
`*.jsonl` file has a malformed line and whose second fully parses. -/
def sampleJsonlDir : MethodDir := ⟨[none], [[none], [some (Json.num 1)]]⟩

/-- A method directory where nothing parses. -/
def sampleBadDir : MethodDir := ⟨[none], [[none]]⟩

/-- A results root with only the `mcts_results` directory present. -/
def sampleDirs : String → Option MethodDir :=
  fun m => if m = "mcts_results" then some sampleJsonDir else none

/-- The loader output of the round-trip scenario:
`mcts_results/out.json` holding a single object that wraps one record
under `"results"`. -/
def roundTripResults : List (String × Json) :=
  [("mcts_results",
    Json.obj [("results",
      Json.arr [Json.obj [("question", Json.str "1 1 4 6"),
                          ("answer", Json.str "(6-4)*(1+1)")]])])]

/-- A canonical problem table containing `"1 1 4 6"` at position 2. -/
def roundTripTable : List (List (String × String)) :=
  [[("Puzzles", "3 3 8 8")], [("Puzzles", "2 2 2 2")], [("Puzzles", "1 1 4 6")]]

/-! ## Theorems -/

/-- C1 (counterexample): the claim "exit status 0 iff every check —
files, directories, imports, and the smoke judge returning true —
passed" is false on the code: in this environment every file/directory
check and every import passes but the judge smoke test returns `False`,
yet the validator exits 0, because `main` falls through to `return 0`
at line 125 whatever the smoke outcome. -/
theorem validator_exit_ignores_smoke :
    (validator_main smokeFailEnv).exitCode = 0 ∧
    (fileCheckList smokeFailEnv).all (fun c => c.2) = true ∧
    (importCheckList smokeFailEnv).all (fun c => c.2) = true ∧
    smokeFailEnv.smoke = some false := by
  refine ⟨rfl, rfl, rfl, rfl⟩

/-- C1 (amended): the setup validator's exit status is 0 if and only if
every file and directory existence check and all four module imports
succeeded, and 1 otherwise; the smoke invocation of the puzzle judge is
performed only in the former case and its outcome (the judge returning
`False`, or raising) does not affect the exit status. -/
theorem validator_exit_spec (e : SetupEnv) :
    ((validator_main e).exitCode = 0 ↔
      ((fileCheckList e).all (fun c => c.2) = true ∧
        (importCheckList e).all (fun c => c.2) = true)) ∧
    ((validator_main e).exitCode = 1 ↔
      ¬ ((fileCheckList e).all (fun c => c.2) = true ∧
        (importCheckList e).all (fun c => c.2) = true)) ∧
    ((validator_main e).smokeRan = true ↔
      ((fileCheckList e).all (fun c => c.2) = true ∧
        (importCheckList e).all (fun c => c.2) = true)) := by
  cases hf : (fileCheckList e).all (fun c => c.2) <;>
    cases hi : (importCheckList e).all (fun c => c.2) <;>
      simp [validator_main, hf, hi]

/-- C2 (counterexample): the claim "for every combination of check
outcomes the validator evaluates every check in its list (all
file/directory checks, all imports) before exiting" is false on the
code: with the policy model directory missing, `main` returns 1 at
line 63 right after the file/directory block, and none of the four
imports is ever attempted. -/
theorem validator_skips_imports :
    (validator_main missingDirEnv).exitCode = 1 ∧
    (validator_main missingDirEnv).importChecks = [] ∧
    (validator_main missingDirEnv).fileChecks = fileCheckList missingDirEnv ∧
    ("Policy Model Directory", false) ∈ (validator_main missingDirEnv).fileChecks ∧
    ("Game24 Environment", true) ∈ (validator_main missingDirEnv).fileChecks := by
  refine ⟨rfl, rfl, rfl, by decide, by decide⟩

/-- C2 (amended): within the file/directory stage every check is
evaluated regardless of individual outcomes, and the validator exits
exactly once per run; when every file/directory check passes, all four
imports are likewise evaluated regardless of their outcomes; but when
any file/directory check fails the validator exits 1 without attempting
any import.  In particular, with one missing checklist directory every
other file/directory check is still evaluated, the failure marker for
the missing one is printed, and the validator exits 1 — without
attempting the imports. -/
theorem validator_traversal_spec (e : SetupEnv) :
    ((validator_main e).fileChecks = fileCheckList e) ∧
    ((fileCheckList e).all (fun c => c.2) = true →
      (validator_main e).importChecks = importCheckList e) ∧
    ((fileCheckList e).all (fun c => c.2) = false →
      (validator_main e).exitCode = 1 ∧ (validator_main e).importChecks = []) := by
  cases hf : (fileCheckList e).all (fun c => c.2) <;>
    cases hi : (importCheckList e).all (fun c => c.2) <;>
      simp [validator_main, hf, hi]

/-- Witness for `validator_traversal_spec`: at `allGoodEnv` the import
checklist is fully evaluated, and at `missingDirEnv` the validator
exits 1 with no import evaluated. -/
theorem validator_traversal_spec_witness :
    (validator_main allGoodEnv).importChecks = importCheckList allGoodEnv ∧
    ((validator_main missingDirEnv).exitCode = 1 ∧
      (validator_main missingDirEnv).importChecks = []) :=
  ⟨(validator_traversal_spec allGoodEnv).2.1 (by decide),
   (validator_traversal_spec missingDirEnv).2.2 (by decide)⟩

/-- C7: when the Result Loader returns an empty mapping, the formatter's
`main` prints the no-results message and returns normally (process exit
status 0) before `os.makedirs` and before any row is written: no output
directory and no output file is created, whatever the canonical
table. -/
theorem formatter_main_empty_results (table : List (List (String × String))) :
    formatter_main [] table = ⟨true, false, none, 0⟩ := rfl

/-- C4: for a record with none of the confidence-bearing fields
(`confidence`, `score`, `value`, `probability`), the confidence is
determined solely by the method name: 0.8 for `mcts_results`, 0.7 for
`cot_sc_results`, 0.6 for `cot_greedy_results`, and 0.5 for any other
method name. -/
theorem get_solution_confidence_default_spec (item : List (String × Json)) (method : String)
    (hc : alookup "confidence" item = none) (hs : alookup "score" item = none)
    (hv : alookup "value" item = none) (hp : alookup "probability" item = none) :
    get_solution_confidence item method =
      some (if method = "mcts_results" then 0.8
        else if method = "cot_sc_results" then 0.7
        else if method = "cot_greedy_results" then 0.6
        else 0.5) := by
  simp [get_solution_confidence, confidence_keys, confidenceFromKeys,
    hc, hs, hv, hp, methodDefaultConfidence]

/-- Witness for `get_solution_confidence_default_spec` at a concrete
record carrying only a question field. -/
theorem get_solution_confidence_default_spec_witness :
    get_solution_confidence [("question", Json.str "1 1 4 6")] "mcts_results" = some 0.8 := by
  have h := get_solution_confidence_default_spec
    [("question", Json.str "1 1 4 6")] "mcts_results" rfl rfl rfl rfl
  rwa [if_pos rfl] at h

/-- Helper: a row with at least one column always yields a problem
string. -/
theorem rowProblem_isSome (row : List (String × String)) (h : row ≠ []) :
    ∃ p, rowProblem row = some p := by
  unfold rowProblem
  rcases hl : alookup "Puzzles" row with _ | v
  · match row with
    | [] => exact absurd rfl h
    | [c] => exact ⟨pyStrip c.2, rfl⟩
    | a :: c :: rest => exact ⟨pyStrip c.2, rfl⟩
  · exact ⟨pyStrip v, rfl⟩

/-- Helper: the row loop succeeds on any table whose rows all have at
least one column. -/
theorem buildSubmissionRows_total (final : List (String × String)) :
    ∀ (table : List (List (String × String))) (idx : Nat),
      (∀ row ∈ table, row ≠ []) →
      ∃ out, buildSubmissionRows final idx table = some out := by
  intro table
  induction table with
  | nil => exact fun idx _ => ⟨[], rfl⟩
  | cons row rest ih =>
    intro idx h
    obtain ⟨p, hp⟩ := rowProblem_isSome row (h row (List.mem_cons_self row rest))
    obtain ⟨out, hout⟩ := ih (idx + 1) (fun r hr => h r (List.mem_cons_of_mem _ hr))
    exact ⟨⟨idx, p, (alookup p final).getD "No solution found"⟩ :: out,
      by simp [buildSubmissionRows, hp, hout]⟩

/-- Helper: full characterisation of a successful run of the row loop:
one output row per table row, ids consecutive from the starting index,
each problem obtained by `rowProblem` from the corresponding table row,
each solution the `FinalSolution` lookup with the literal fallback. -/
theorem buildSubmissionRows_spec (final : List (String × String)) :
    ∀ (table : List (List (String × String))) (idx : Nat) (out : List SubmissionRow),
      buildSubmissionRows final idx table = some out →
      out.length = table.length ∧
      ∀ (j : Nat) (r : SubmissionRow), out[j]? = some r →
        r.id = idx + j ∧
        (∃ row, table[j]? = some row ∧ rowProblem row = some r.problem) ∧
        r.solution = (alookup r.problem final).getD "No solution found" := by
  intro table
  induction table with
  | nil =>
    intro idx out h
    simp only [buildSubmissionRows] at h
    cases h
    simp
  | cons row rest ih =>
    intro idx out h
    simp only [buildSubmissionRows] at h
    rcases hp : rowProblem row with _ | p <;> rw [hp] at h
    · exact absurd h (by simp)
    · rcases hrec : buildSubmissionRows final (idx + 1) rest with _ | rs <;> rw [hrec] at h
      · exact absurd h (by simp)
      · simp only [Option.map_some'] at h
        cases h
        obtain ⟨hlen, hj⟩ := ih (idx + 1) rs hrec
        constructor
        · simp [hlen]
        · intro j r hr
          cases j with
          | zero =>
            simp only [List.getElem?_cons_zero] at hr
            cases hr
            exact ⟨by simp, ⟨row, by simp, hp⟩, rfl⟩
          | succ j₁ =>
            simp only [List.getElem?_cons_succ] at hr
            obtain ⟨hid, hrow, hsol⟩ := hj j₁ r hr
            exact ⟨by omega, by simpa using hrow, hsol⟩

/-- C6: for every canonical table (each row having at least one column,
as any CSV row does) and every `FinalSolution` mapping, the Submission
Builder emits exactly one row per canonical row, in the original order
with consecutive integer ids starting at 0, each row's problem obtained
from its table row, and each row's solution either the value
`FinalSolution` assigns to that problem string or exactly
`"No solution found"`. -/
theorem create_kaggle_submission_spec (final : List (String × String))
    (table : List (List (String × String))) (h : ∀ row ∈ table, row ≠ []) :
    ∃ out, create_kaggle_submission final table = some out ∧
      out.length = table.length ∧
      ∀ (j : Nat) (r : SubmissionRow), out[j]? = some r →
        r.id = j ∧
        (∃ row, table[j]? = some row ∧ rowProblem row = some r.problem) ∧
        (alookup r.problem final = some r.solution ∨
          (alookup r.problem final = none ∧ r.solution = "No solution found")) := by
  obtain ⟨out, hout⟩ := buildSubmissionRows_total final table 0 h
  obtain ⟨hlen, hj⟩ := buildSubmissionRows_spec final table 0 out hout
  refine ⟨out, hout, hlen, ?_⟩
  intro j r hr
  obtain ⟨hid, hrow, hsol⟩ := hj j r hr
  refine ⟨by omega, hrow, ?_⟩
  rcases ha : alookup r.problem final with _ | s
  · right
    rw [ha] at hsol
    exact ⟨rfl, hsol⟩
  · left
    simp only [ha, Option.getD_some] at hsol
    rw [hsol]

/-- Witness for `create_kaggle_submission_spec` on a two-row table with
one solved problem. -/
theorem create_kaggle_submission_spec_witness :
    ∃ out,
      create_kaggle_submission [("1 1 4 6", "(6-4)*(1+1)")]
        [[("Puzzles", "1 1 4 6")], [("Puzzles", "9 9 9 9")]] = some out ∧
      out.length = ([[("Puzzles", "1 1 4 6")], [("Puzzles", "9 9 9 9")]] :
        List (List (String × String))).length ∧
      ∀ (j : Nat) (r : SubmissionRow), out[j]? = some r →
        r.id = j ∧
        (∃ row, ([[("Puzzles", "1 1 4 6")], [("Puzzles", "9 9 9 9")]] :
          List (List (String × String)))[j]? = some row ∧ rowProblem row = some r.problem) ∧
        (alookup r.problem [("1 1 4 6", "(6-4)*(1+1)")] = some r.solution ∨
          (alookup r.problem [("1 1 4 6", "(6-4)*(1+1)")] = none ∧
            r.solution = "No solution found")) :=
  create_kaggle_submission_spec [("1 1 4 6", "(6-4)*(1+1)")]
    [[("Puzzles", "1 1 4 6")], [("Puzzles", "9 9 9 9")]] (by decide)

/-- C10 (counterexample): the claim that on a zero-row canonical table
"the division by zero makes the error branch reachable" is false on the
code: the builder turns the empty table into zero submission rows, and
the statistics step then fails at line 221 — `submission_df['solution']`
on the column-less `pd.DataFrame([])` raises `KeyError` — before the
division at line 223 is ever executed, so the failure is not a
`ZeroDivisionError`. -/
theorem submission_summary_zero_rows_keyerror :
    create_kaggle_submission [] [] = some [] ∧
    submission_summary [] = Except.error "KeyError: solution" ∧
    submission_summary [] ≠ Except.error "ZeroDivisionError" :=
  ⟨rfl, rfl, fun h => absurd (Except.error.inj h) (by decide)⟩

/-- C10 (amended): the post-write summary divides the solved count by
the row count with no zero guard, and the builder is total only under
the precondition that the canonical table is non-empty: for every
canonical table with at least one row (and hence a non-empty emitted row
list) the summary is a well-defined `.ok` value, while the empty
canonical table makes the statistics step fail.  That failure, however,
is line 221's `KeyError` on the column-less empty DataFrame, not the
division: since the row count is zero only for the empty row list, on
which the column access has already raised, the unguarded division's
`ZeroDivisionError` branch is unreachable on every input. -/
theorem submission_summary_spec (final : List (String × String))
    (table : List (List (String × String))) (out : List SubmissionRow)
    (htab : table ≠ []) (hout : create_kaggle_submission final table = some out) :
    (∃ q, submission_summary out = Except.ok q) ∧
    create_kaggle_submission final [] = some [] ∧
    submission_summary [] = Except.error "KeyError: solution" ∧
    (∀ rows : List SubmissionRow,
      submission_summary rows ≠ Except.error "ZeroDivisionError") := by
  have hlen := (buildSubmissionRows_spec final table 0 out hout).1
  refine ⟨?_, rfl, rfl, ?_⟩
  · rcases hcase : out with _ | ⟨r, rs⟩
    · exfalso
      rw [hcase] at hlen
      exact htab (List.length_eq_zero.mp hlen.symm)
    · exact ⟨_, rfl⟩
  · intro rows
    rcases rows with _ | ⟨r, rs⟩
    · exact fun h => absurd (Except.error.inj h) (by decide)
    · intro h
      simp [submission_summary, solutionColumn] at h

/-- Witness for `submission_summary_spec` on a one-row table. -/
theorem submission_summary_spec_witness :
    (∃ q, submission_summary [⟨0, "1 1 4 6", "No solution found"⟩] = Except.ok q) ∧
    create_kaggle_submission [] [] = some [] ∧
    submission_summary [] = Except.error "KeyError: solution" ∧
    (∀ rows : List SubmissionRow,
      submission_summary rows ≠ Except.error "ZeroDivisionError") :=
  submission_summary_spec [] [[("Puzzles", "1 1 4 6")]]
    [⟨0, "1 1 4 6", "No solution found"⟩] (by decide) rfl

/-- Helper: the key loop of `extract_best_solution` returns the value
dictated by the first present key, when that key's value is a non-empty
list or a string. -/
theorem solutionFromKeys_first (item : List (String × Json)) :
    ∀ (ks : List String) (i : Nat) (k : String), ks[i]? = some k →
      (∀ j, j < i → ∀ k₁, ks[j]? = some k₁ → alookup k₁ item = none) →
      (∀ v vs, alookup k item = some (Json.arr (v :: vs)) →
        solutionFromKeys item ks = some (pyStr v)) ∧
      (∀ s, alookup k item = some (Json.str s) →
        solutionFromKeys item ks = some s) := by
  intro ks
  induction ks with
  | nil => intro i k hk; simp at hk
  | cons k₀ ks₁ ih =>
    intro i k hk hfirst
    cases i with
    | zero =>
      simp only [List.getElem?_cons_zero, Option.some.injEq] at hk
      subst hk
      constructor
      · intro v vs hv
        simp [solutionFromKeys, hv]
      · intro s hs
        simp [solutionFromKeys, hs]
    | succ i₁ =>
      simp only [List.getElem?_cons_succ] at hk
      have h₀ : alookup k₀ item = none :=
        hfirst 0 (Nat.succ_pos i₁) k₀ (by simp)
      have hrec := ih i₁ k hk
        (fun j hj k₁ h₁ => hfirst (j + 1) (by omega) k₁ (by simpa using h₁))
      constructor
      · intro v vs hv
        rw [show solutionFromKeys item (k₀ :: ks₁) = solutionFromKeys item ks₁ from
          by simp [solutionFromKeys, h₀]]
        exact hrec.1 v vs hv
      · intro s hs
        rw [show solutionFromKeys item (k₀ :: ks₁) = solutionFromKeys item ks₁ from
          by simp [solutionFromKeys, h₀]]
        exact hrec.2 s hs

/-- Helper: the key loop finds nothing when no priority key is
present. -/
theorem solutionFromKeys_none (item : List (String × Json)) :
    ∀ ks : List String, (∀ k ∈ ks, alookup k item = none) →
      solutionFromKeys item ks = none := by
  intro ks
  induction ks with
  | nil => intro _; rfl
  | cons k₀ ks₁ ih =>
    intro h
    have h₀ : alookup k₀ item = none := h k₀ (List.mem_cons_self k₀ ks₁)
    rw [show solutionFromKeys item (k₀ :: ks₁) = solutionFromKeys item ks₁ from
      by simp [solutionFromKeys, h₀]]
    exact ih (fun k hk => h k (List.mem_cons_of_mem k₀ hk))

/-- C5: the extracted solution string comes from the first present field
in the fixed priority order `answer, prediction, output, best_answer,
solution` — a non-empty sequence value yields the string form of its
first element, a plain string value is used directly; when none of the
priority fields is present, the first element of a present non-empty
`outputs` field is used; otherwise the result is exactly
`"No solution found"`.  In particular a record with both
`"answer": "X"` and `"prediction": "Y"` yields `"X"`. -/
theorem extract_best_solution_spec (item : List (String × Json)) (m : String) :
    (∀ (i : Nat) (k : String), solution_keys[i]? = some k →
      (∀ j, j < i → ∀ k₁, solution_keys[j]? = some k₁ → alookup k₁ item = none) →
      (∀ v vs, alookup k item = some (Json.arr (v :: vs)) →
        extract_best_solution item m = pyStr v) ∧
      (∀ s, alookup k item = some (Json.str s) →
        extract_best_solution item m = s)) ∧
    ((∀ k ∈ solution_keys, alookup k item = none) →
      (∀ v vs, alookup "outputs" item = some (Json.arr (v :: vs)) →
        extract_best_solution item m = pyStr v) ∧
      ((∀ v vs, alookup "outputs" item ≠ some (Json.arr (v :: vs))) →
        extract_best_solution item m = "No solution found")) ∧
    extract_best_solution [("answer", Json.str "X"), ("prediction", Json.str "Y")] m = "X" := by
  refine ⟨?_, ?_, rfl⟩
  · intro i k hk hfirst
    have h := solutionFromKeys_first item solution_keys i k hk hfirst
    constructor
    · intro v vs hv
      simp [extract_best_solution, h.1 v vs hv]
    · intro s hs
      simp [extract_best_solution, h.2 s hs]
  · intro hnone
    have h := solutionFromKeys_none item solution_keys hnone
    constructor
    · intro v vs hv
      simp [extract_best_solution, h, hv]
    · intro houts
      rcases ho : alookup "outputs" item with _ | v
      · simp [extract_best_solution, h, ho]
      · cases v with
        | arr items =>
          cases items with
          | nil => simp [extract_best_solution, h, ho]
          | cons w ws => exact absurd ho (houts w ws)
        | null => simp [extract_best_solution, h, ho]
        | bool b => simp [extract_best_solution, h, ho]
        | num q => simp [extract_best_solution, h, ho]
        | str s => simp [extract_best_solution, h, ho]
        | obj fields => simp [extract_best_solution, h, ho]

/-- Witness for `extract_best_solution_spec`: a first-present
`prediction` holding a non-empty list, a record with no priority field
and no outputs, and the `answer`/`prediction` pair. -/
theorem extract_best_solution_spec_witness :
    extract_best_solution [("prediction", Json.arr [Json.str "Z", Json.str "W"])] "m" =
      pyStr (Json.str "Z") ∧
    extract_best_solution [("question", Json.str "q")] "m" = "No solution found" ∧
    extract_best_solution [("answer", Json.str "X"), ("prediction", Json.str "Y")] "m" = "X" := by
  refine ⟨?_, ?_, (extract_best_solution_spec [] "m").2.2⟩
  · refine ((extract_best_solution_spec
      [("prediction", Json.arr [Json.str "Z", Json.str "W"])] "m").1 1 "prediction" rfl
      ?_).1 (Json.str "Z") [Json.str "W"] rfl
    intro j hj k₁ hk₁
    have hj0 : j = 0 := by omega
    subst hj0
    simp only [solution_keys, List.getElem?_cons_zero, Option.some.injEq] at hk₁
    subst hk₁
    rfl
  · refine ((extract_best_solution_spec [("question", Json.str "q")] "m").2.1 ?_).2 ?_
    · intro k hk
      fin_cases hk <;> rfl
    · intro v vs h
      simp [alookup] at h

/-- Helper: the `*.json` scan returns the first file that parses. -/
theorem firstJson_of_first :
    ∀ (l : List (Option Json)) (i : Nat) (v : Json), l[i]? = some (some v) →
      (∀ j, j < i → l[j]? = some none) → firstJson l = some v := by
  intro l
  induction l with
  | nil => intro i v hi; simp at hi
  | cons o rest ih =>
    intro i v hi hfirst
    cases i with
    | zero =>
      simp only [List.getElem?_cons_zero, Option.some.injEq] at hi
      subst hi
      rfl
    | succ i₁ =>
      have h₀ : o = none := by
        have := hfirst 0 (Nat.succ_pos i₁)
        simpa using this
      subst h₀
      simp only [List.getElem?_cons_succ] at hi
      exact ih i₁ v hi (fun j hj => by simpa using hfirst (j + 1) (by omega))

/-- Helper: the `*.json` scan finds nothing when every file is
malformed. -/
theorem firstJson_of_all_none :
    ∀ l : List (Option Json), (∀ o ∈ l, o = none) → firstJson l = none := by
  intro l
  induction l with
  | nil => intro _; rfl
  | cons o rest ih =>
    intro h
    have h₀ : o = none := h o (List.mem_cons_self o rest)
    subst h₀
    exact ih (fun o ho => h o (List.mem_cons_of_mem none ho))

/-- Helper: a `*.jsonl` file with every line parsable fully parses. -/
theorem parseJsonlFile_isSome :
    ∀ f : List (Option Json), (∀ o ∈ f, o ≠ none) →
      ∃ vs, parseJsonlFile f = some vs := by
  intro f
  induction f with
  | nil => exact fun _ => ⟨[], rfl⟩
  | cons o rest ih =>
    intro h
    obtain ⟨vs, hvs⟩ := ih (fun o ho => h o (List.mem_cons_of_mem _ ho))
    rcases o with _ | v
    · exact absurd rfl (h none (List.mem_cons_self none rest))
    · exact ⟨v :: vs, by simp [parseJsonlFile, hvs]⟩

/-- Helper: one malformed line aborts the whole `*.jsonl` file. -/
theorem parseJsonlFile_of_bad_line :
    ∀ f : List (Option Json), (∃ o ∈ f, o = none) → parseJsonlFile f = none := by
  intro f
  induction f with
  | nil => intro h; simp at h
  | cons o rest ih =>
    intro h
    rcases o with _ | v
    · rfl
    · have : ∃ o ∈ rest, o = none := by
        obtain ⟨o, ho, hno⟩ := h
        rcases List.mem_cons.mp ho with h₁ | h₁
        · exact absurd (h₁ ▸ hno) (by simp)
        · exact ⟨o, h₁, hno⟩
      simp [parseJsonlFile, ih this]

/-- Helper: the `*.jsonl` scan returns the first fully-parsable file. -/
theorem firstJsonl_of_first :
    ∀ (fs : List (List (Option Json))) (i : Nat) (f : List (Option Json)),
      fs[i]? = some f → (∀ o ∈ f, o ≠ none) →
      (∀ j, j < i → ∀ g, fs[j]? = some g → ∃ o ∈ g, o = none) →
      ∃ vs, parseJsonlFile f = some vs ∧ firstJsonl fs = some (Json.arr vs) := by
  intro fs
  induction fs with
  | nil => intro i f hi; simp at hi
  | cons f₀ fs₁ ih =>
    intro i f hi hlines hprev
    cases i with
    | zero =>
      simp only [List.getElem?_cons_zero, Option.some.injEq] at hi
      cases hi
      obtain ⟨vs, hvs⟩ := parseJsonlFile_isSome f₀ hlines
      exact ⟨vs, hvs, by simp [firstJsonl, hvs]⟩
    | succ i₁ =>
      have h₀ : parseJsonlFile f₀ = none := by
        refine parseJsonlFile_of_bad_line f₀ ?_
        exact hprev 0 (Nat.succ_pos i₁) f₀ (by simp)
      simp only [List.getElem?_cons_succ] at hi
      obtain ⟨vs, hvs, hfl⟩ := ih i₁ f hi hlines
        (fun j hj g hg => hprev (j + 1) (by omega) g (by simpa using hg))
      exact ⟨vs, hvs, by simp [firstJsonl, h₀, hfl]⟩

/-- Helper: the `*.jsonl` scan finds nothing when every file has a bad
line. -/
theorem firstJsonl_of_all_bad :
    ∀ fs : List (List (Option Json)), (∀ f ∈ fs, ∃ o ∈ f, o = none) →
      firstJsonl fs = none := by
  intro fs
  induction fs with
  | nil => intro _; rfl
  | cons f₀ fs₁ ih =>
    intro h
    have h₀ : parseJsonlFile f₀ = none :=
      parseJsonlFile_of_bad_line f₀ (h f₀ (List.mem_cons_self f₀ fs₁))
    simp [firstJsonl, h₀, ih (fun f hf => h f (List.mem_cons_of_mem f₀ hf))]

/-- Helper: lookup of a method name in the loader's output list, for an
arbitrary method list. -/
theorem alookup_load_aux (dirs : String → Option MethodDir) (m : String) :
    ∀ ms : List String,
      alookup m (ms.filterMap (fun m₁ => ((dirs m₁).bind loadMethodDir).map (fun v => (m₁, v)))) =
        if m ∈ ms then (dirs m).bind loadMethodDir else none := by
  intro ms
  induction ms with
  | nil => simp [alookup]
  | cons m₁ ms₁ ih =>
    rcases h : (dirs m₁).bind loadMethodDir with _ | v
    · rw [List.filterMap_cons_none, ih]
      · by_cases hm : m₁ = m
        · subst hm
          by_cases hmem : m₁ ∈ ms₁ <;> simp [hmem, h]
        · have hm₁ : ¬ m = m₁ := fun hx => hm hx.symm
          by_cases hmem : m ∈ ms₁ <;> simp [hmem, hm₁, List.mem_cons]
      · rw [h]
        rfl
    · rw [List.filterMap_cons_some (by rw [h]; rfl)]
      by_cases hm : m₁ = m
      · subst hm
        simp [alookup, h]
      · have hm₁ : ¬ m = m₁ := fun hx => hm hx.symm
        simp only [alookup, if_neg hm, ih]
        simp [List.mem_cons, hm₁]

/-- C8: per method, the loader uses the first JSON file (in listing
order) that parses as a single document; only when every JSON file is
malformed does it consult JSON-lines files, where a single malformed
line aborts that file's parse and the scan moves to the next file, or
gives up on the method when all fail; a missing method directory or a
fully unparsable method contributes no entry to the returned mapping,
and no error is ever raised (the loader is a total function). -/
theorem load_evaluation_results_spec :
    (∀ d : MethodDir,
      (∀ (i : Nat) (v : Json), d.jsonFiles[i]? = some (some v) →
        (∀ j, j < i → d.jsonFiles[j]? = some none) →
        loadMethodDir d = some v) ∧
      ((∀ o ∈ d.jsonFiles, o = none) →
        (∀ (i : Nat) (f : List (Option Json)), d.jsonlFiles[i]? = some f →
          (∀ o ∈ f, o ≠ none) →
          (∀ j, j < i → ∀ g, d.jsonlFiles[j]? = some g → ∃ o ∈ g, o = none) →
          ∃ vs, parseJsonlFile f = some vs ∧ loadMethodDir d = some (Json.arr vs)) ∧
        ((∀ f ∈ d.jsonlFiles, ∃ o ∈ f, o = none) → loadMethodDir d = none))) ∧
    (∀ (dirs : String → Option MethodDir) (m : String), m ∈ methods →
      alookup m (load_evaluation_results dirs) = (dirs m).bind loadMethodDir) ∧
    (∀ (dirs : String → Option MethodDir) (m : String), m ∉ methods →
      alookup m (load_evaluation_results dirs) = none) := by
  refine ⟨?_, ?_, ?_⟩
  · intro d
    constructor
    · intro i v hi hfirst
      unfold loadMethodDir
      rw [firstJson_of_first d.jsonFiles i v hi hfirst]
    · intro hnone
      have hfj : firstJson d.jsonFiles = none := firstJson_of_all_none _ hnone
      constructor
      · intro i f hf hlines hprev
        obtain ⟨vs, hvs, hfl⟩ := firstJsonl_of_first d.jsonlFiles i f hf hlines hprev
        refine ⟨vs, hvs, ?_⟩
        unfold loadMethodDir
        rw [hfj]
        exact hfl
      · intro hall
        unfold loadMethodDir
        rw [hfj]
        exact firstJsonl_of_all_bad _ hall
  · intro dirs m hm
    unfold load_evaluation_results
    rw [alookup_load_aux, if_pos hm]
  · intro dirs m hm
    unfold load_evaluation_results
    rw [alookup_load_aux, if_neg hm]

/-- Witness for `load_evaluation_results_spec` on concrete directories:
a second JSON file parsing after a malformed first, a JSON-lines
fallback skipping a file with a bad line, a fully unparsable method, and
lookups into a results root where only `mcts_results` exists. -/
theorem load_evaluation_results_spec_witness :
    loadMethodDir sampleJsonDir = some (Json.str "ok") ∧
    (∃ vs, parseJsonlFile [some (Json.num 1)] = some vs ∧
      loadMethodDir sampleJsonlDir = some (Json.arr vs)) ∧
    loadMethodDir sampleBadDir = none ∧
    alookup "cot_sc_results" (load_evaluation_results sampleDirs) =
      (sampleDirs "cot_sc_results").bind loadMethodDir ∧
    alookup "other" (load_evaluation_results sampleDirs) = none := by
  refine ⟨?_, ?_, ?_, ?_, ?_⟩
  · refine (load_evaluation_results_spec.1 sampleJsonDir).1 1 (Json.str "ok") rfl ?_
    intro j hj
    have hj0 : j = 0 := by omega
    subst hj0
    rfl
  · refine ((load_evaluation_results_spec.1 sampleJsonlDir).2 ?_).1 1 [some (Json.num 1)]
      rfl ?_ ?_
    · intro o ho
      simp only [sampleJsonlDir, List.mem_singleton] at ho
      exact ho
    · intro o ho
      simp only [List.mem_singleton] at ho
      subst ho
      simp
    · intro j hj g hg
      have hj0 : j = 0 := by omega
      subst hj0
      simp only [sampleJsonlDir, List.getElem?_cons_zero, Option.some.injEq] at hg
      subst hg
      exact ⟨none, by simp, rfl⟩
  · refine ((load_evaluation_results_spec.1 sampleBadDir).2 ?_).2 ?_
    · intro o ho
      simp only [sampleBadDir, List.mem_singleton] at ho
      exact ho
    · intro f hf
      simp only [sampleBadDir, List.mem_singleton] at hf
      subst hf
      exact ⟨none, by simp, rfl⟩
  · exact load_evaluation_results_spec.2.1 sampleDirs "cot_sc_results" (by simp [methods])
  · exact load_evaluation_results_spec.2.2 sampleDirs "other" (by simp [methods])

/-- Helper: effect of one grouping step on a lookup. -/
theorem alookup_insertCandidate :
    ∀ (acc : List (String × List GroupedSolution)) (c : CandidateSolution) (p : String),
      alookup p (insertCandidate acc c) =
        if c.problem = p then some ((alookup p acc).getD [] ++ [toGrouped c])
        else alookup p acc := by
  intro acc
  induction acc with
  | nil =>
    intro c p
    by_cases hc : c.problem = p <;> simp [insertCandidate, alookup, hc, toGrouped]
  | cons e acc₁ ih =>
    intro c p
    obtain ⟨p₁, cs₁⟩ := e
    by_cases h₁ : p₁ = c.problem
    · rw [show insertCandidate ((p₁, cs₁) :: acc₁) c =
        (p₁, cs₁ ++ [⟨c.solution, c.confidence, c.method⟩]) :: acc₁ from
        by simp [insertCandidate, h₁]]
      by_cases h₂ : p₁ = p
      · subst h₂
        simp [alookup, h₁.symm, toGrouped]
      · have hc : ¬ c.problem = p := fun hx => h₂ (h₁.trans hx)
        simp [alookup, h₂, hc]
    · rw [show insertCandidate ((p₁, cs₁) :: acc₁) c =
        (p₁, cs₁) :: insertCandidate acc₁ c from by simp [insertCandidate, h₁]]
      by_cases h₂ : p₁ = p
      · have hc : ¬ c.problem = p := fun hx => h₁ (h₂.trans hx.symm)
        simp [alookup, h₂, hc]
      · simp [alookup, h₂, ih c p]

/-- Helper: a group already present in the accumulator collects, in
order, the later candidates sharing its problem. -/
theorem alookup_foldl_insert_some (p : String) :
    ∀ (l : List CandidateSolution) (acc : List (String × List GroupedSolution))
      (cs : List GroupedSolution),
      alookup p acc = some cs →
      alookup p (l.foldl insertCandidate acc) =
        some (cs ++ (l.filter (fun c => c.problem = p)).map toGrouped) := by
  intro l
  induction l with
  | nil => intro acc cs h; simpa using h
  | cons c l₁ ih =>
    intro acc cs h
    rw [List.foldl_cons]
    by_cases hc : c.problem = p
    · have hstep : alookup p (insertCandidate acc c) = some (cs ++ [toGrouped c]) := by
        rw [alookup_insertCandidate, if_pos hc, h]
        rfl
      rw [ih (insertCandidate acc c) (cs ++ [toGrouped c]) hstep]
      simp [hc, List.append_assoc]
    · have hstep : alookup p (insertCandidate acc c) = some cs := by
        rw [alookup_insertCandidate, if_neg hc]
        exact h
      rw [ih (insertCandidate acc c) cs hstep]
      simp [hc]

/-- Helper: a group not yet present is exactly the later candidates
sharing its problem, in order. -/
theorem alookup_foldl_insert_none (p : String) :
    ∀ (l : List CandidateSolution) (acc : List (String × List GroupedSolution)),
      alookup p acc = none →
      alookup p (l.foldl insertCandidate acc) =
        if l.filter (fun c => c.problem = p) = [] then none
        else some ((l.filter (fun c => c.problem = p)).map toGrouped) := by
  intro l
  induction l with
  | nil => intro acc h; simpa using h
  | cons c l₁ ih =>
    intro acc h
    rw [List.foldl_cons]
    by_cases hc : c.problem = p
    · have hstep : alookup p (insertCandidate acc c) = some [toGrouped c] := by
        rw [alookup_insertCandidate, if_pos hc, h]
        rfl
      rw [alookup_foldl_insert_some p l₁ _ _ hstep]
      simp [hc]
    · have hstep : alookup p (insertCandidate acc c) = none := by
        rw [alookup_insertCandidate, if_neg hc]
        exact h
      rw [ih _ hstep]
      simp [hc]

/-- Helper: the group of problem `p` in `problem_map` is exactly the
candidates with problem `p`, in insertion order. -/
theorem alookup_groupByProblem (p : String) (l : List CandidateSolution) :
    alookup p (groupByProblem l) =
      if l.filter (fun c => c.problem = p) = [] then none
      else some ((l.filter (fun c => c.problem = p)).map toGrouped) :=
  alookup_foldl_insert_none p l [] rfl

/-- Helper: grouping never produces an empty group. -/
theorem insertCandidate_groups_ne_nil :
    ∀ (acc : List (String × List GroupedSolution)) (c : CandidateSolution),
      (∀ e ∈ acc, e.2 ≠ []) → ∀ e ∈ insertCandidate acc c, e.2 ≠ [] := by
  intro acc
  induction acc with
  | nil =>
    intro c _ e he
    simp only [insertCandidate, List.mem_singleton] at he
    subst he
    simp
  | cons e₀ acc₁ ih =>
    intro c h e he
    obtain ⟨p₁, cs₁⟩ := e₀
    by_cases h₁ : p₁ = c.problem
    · rw [show insertCandidate ((p₁, cs₁) :: acc₁) c =
        (p₁, cs₁ ++ [⟨c.solution, c.confidence, c.method⟩]) :: acc₁ from
        by simp [insertCandidate, h₁]] at he
      rcases List.mem_cons.mp he with h₂ | h₂
      · subst h₂; simp
      · exact h e (List.mem_cons_of_mem _ h₂)
    · rw [show insertCandidate ((p₁, cs₁) :: acc₁) c =
        (p₁, cs₁) :: insertCandidate acc₁ c from by simp [insertCandidate, h₁]] at he
      rcases List.mem_cons.mp he with h₂ | h₂
      · subst h₂
        exact h (p₁, cs₁) (List.mem_cons_self _ _)
      · exact ih c (fun e₁ he₁ => h e₁ (List.mem_cons_of_mem _ he₁)) e h₂

/-- Helper: every group of `problem_map` is non-empty, so Python's
`max` at line 158 never sees an empty sequence. -/
theorem groupByProblem_groups_ne_nil (l : List CandidateSolution) :
    ∀ e ∈ groupByProblem l, e.2 ≠ [] := by
  suffices h : ∀ acc, (∀ e ∈ acc, e.2 ≠ []) →
      ∀ e ∈ l.foldl insertCandidate acc, e.2 ≠ [] by
    exact h [] (by simp)
  induction l with
  | nil => intro acc h; simpa using h
  | cons c l₁ ih =>
    intro acc h
    rw [List.foldl_cons]
    exact ih _ (insertCandidate_groups_ne_nil acc c h)

/-- Helper: lookup into the final mapping factors through the group
lookup when every group is non-empty. -/
theorem alookup_filterMap_max (p : String) :
    ∀ gs : List (String × List GroupedSolution), (∀ e ∈ gs, e.2 ≠ []) →
      alookup p (gs.filterMap
        (fun pc => (maxByConfidence pc.2).map (fun b => (pc.1, b.solution)))) =
        (alookup p gs).bind (fun cs => (maxByConfidence cs).map (fun b => b.solution)) := by
  intro gs
  induction gs with
  | nil => intro _; simp [alookup]
  | cons e gs₁ ih =>
    intro h
    obtain ⟨p₁, cs₁⟩ := e
    have hne : cs₁ ≠ [] := h (p₁, cs₁) (List.mem_cons_self _ _)
    obtain ⟨b₀, hb₀⟩ : ∃ b₀, maxByConfidence cs₁ = some b₀ := by
      rcases cs₁ with _ | ⟨x, xs⟩
      · exact absurd rfl hne
      · exact ⟨_, rfl⟩
    rw [List.filterMap_cons_some (by rw [hb₀]; rfl)]
    by_cases h₂ : p₁ = p
    · simp [alookup, h₂, hb₀]
    · simp [alookup, h₂, ih (fun e₁ he₁ => h e₁ (List.mem_cons_of_mem _ he₁))]

/-- Helper: Python's left-to-right `max` with strict replacement either
keeps the initial element as the maximum, or returns the first element
of the list that strictly exceeds it and everything before it. -/
theorem foldl_pickBest_spec :
    ∀ (t : List GroupedSolution) (b : GroupedSolution),
      (t.foldl pickBest b = b ∧ ∀ x ∈ t, x.confidence ≤ b.confidence) ∨
      (∃ (k : Nat) (r : GroupedSolution), t[k]? = some r ∧ t.foldl pickBest b = r ∧
        b.confidence < r.confidence ∧
        (∀ x ∈ t, x.confidence ≤ r.confidence) ∧
        (∀ (j : Nat), j < k → ∀ (x : GroupedSolution),
          t[j]? = some x → x.confidence < r.confidence)) := by
  intro t
  induction t with
  | nil => intro b; left; exact ⟨rfl, by simp⟩
  | cons x t₁ ih =>
    intro b
    rw [show (x :: t₁).foldl pickBest b = t₁.foldl pickBest (pickBest b x) from rfl]
    by_cases hbx : b.confidence < x.confidence
    · have hpick : pickBest b x = x := by simp [pickBest, hbx]
      rw [hpick]
      rcases ih x with ⟨heq, hle⟩ | ⟨k, r, hkr, heq, hlt, hle, hpre⟩
      · right
        refine ⟨0, x, by simp, heq, hbx, ?_, ?_⟩
        · intro y hy
          rcases List.mem_cons.mp hy with h₁ | h₁
          · subst h₁; exact le_refl _
          · exact hle y h₁
        · intro j hj y hjy
          exact absurd hj (Nat.not_lt_zero j)
      · right
        refine ⟨k + 1, r, by simpa using hkr, heq, lt_trans hbx hlt, ?_, ?_⟩
        · intro y hy
          rcases List.mem_cons.mp hy with h₁ | h₁
          · subst h₁; exact le_of_lt hlt
          · exact hle y h₁
        · intro j hj y hjy
          cases j with
          | zero =>
            simp only [List.getElem?_cons_zero, Option.some.injEq] at hjy
            subst hjy
            exact hlt
          | succ j₁ =>
            simp only [List.getElem?_cons_succ] at hjy
            exact hpre j₁ (by omega) y hjy
    · have hpick : pickBest b x = b := by simp [pickBest, hbx]
      have hxb : x.confidence ≤ b.confidence := le_of_not_lt hbx
      rw [hpick]
      rcases ih b with ⟨heq, hle⟩ | ⟨k, r, hkr, heq, hlt, hle, hpre⟩
      · left
        refine ⟨heq, ?_⟩
        intro y hy
        rcases List.mem_cons.mp hy with h₁ | h₁
        · subst h₁; exact hxb
        · exact hle y h₁
      · right
        refine ⟨k + 1, r, by simpa using hkr, heq, hlt, ?_, ?_⟩
        · intro y hy
          rcases List.mem_cons.mp hy with h₁ | h₁
          · subst h₁; exact le_trans hxb (le_of_lt hlt)
          · exact hle y h₁
        · intro j hj y hjy
          cases j with
          | zero =>
            simp only [List.getElem?_cons_zero, Option.some.injEq] at hjy
            subst hjy
            exact lt_of_le_of_lt hxb hlt
          | succ j₁ =>
            simp only [List.getElem?_cons_succ] at hjy
            exact hpre j₁ (by omega) y hjy

/-- Helper: on a non-empty group, `max` returns an element whose
confidence dominates the group, and every element strictly before it in
the group has strictly smaller confidence (first occurrence wins on
ties). -/
theorem maxByConfidence_spec (cs : List GroupedSolution) (h : cs ≠ []) :
    ∃ (k : Nat) (b : GroupedSolution), cs[k]? = some b ∧ maxByConfidence cs = some b ∧
      (∀ x ∈ cs, x.confidence ≤ b.confidence) ∧
      (∀ (j : Nat), j < k → ∀ (x : GroupedSolution),
        cs[j]? = some x → x.confidence < b.confidence) := by
  rcases cs with _ | ⟨x, t⟩
  · exact absurd rfl h
  · rcases foldl_pickBest_spec t x with ⟨heq, hle⟩ | ⟨k, r, hkr, heq, hlt, hle, hpre⟩
    · refine ⟨0, x, by simp, ?_, ?_, ?_⟩
      · simp [maxByConfidence, heq]
      · intro y hy
        rcases List.mem_cons.mp hy with h₁ | h₁
        · subst h₁; exact le_refl _
        · exact hle y h₁
      · intro j hj y hjy
        exact absurd hj (Nat.not_lt_zero j)
    · refine ⟨k + 1, r, by simpa using hkr, ?_, ?_, ?_⟩
      · simp [maxByConfidence, heq]
      · intro y hy
        rcases List.mem_cons.mp hy with h₁ | h₁
        · subst h₁; exact le_of_lt hlt
        · exact hle y h₁
      · intro j hj y hjy
        cases j with
        | zero =>
          simp only [List.getElem?_cons_zero, Option.some.injEq] at hjy
          subst hjy
          exact hlt
        | succ j₁ =>
          simp only [List.getElem?_cons_succ] at hjy
          exact hpre j₁ (by omega) y hjy

/-- C3: for every candidate list and every problem string occurring in
it, the Aggregator maps the problem to the solution of a candidate whose
confidence is greater than or equal to that of every candidate sharing
the problem string, and on exact ties the earliest-inserted candidate
wins: every candidate strictly before the chosen one among those sharing
the problem has strictly smaller confidence.  The empty candidate list
yields the empty mapping without error. -/
theorem aggregate_solutions_spec (l : List CandidateSolution) (p : String)
    (hp : ∃ c ∈ l, c.problem = p) :
    aggregate_solutions [] = [] ∧
    ∃ (k : Nat) (b : GroupedSolution), (groupedCandidates l p)[k]? = some b ∧
      alookup p (aggregate_solutions l) = some b.solution ∧
      (∃ c ∈ l, c.problem = p ∧ b = toGrouped c) ∧
      (∀ c ∈ l, c.problem = p → c.confidence ≤ b.confidence) ∧
      (∀ (j : Nat), j < k → ∀ (x : GroupedSolution),
        (groupedCandidates l p)[j]? = some x → x.confidence < b.confidence) := by
  have hfil : l.filter (fun c => c.problem = p) ≠ [] := by
    obtain ⟨c, hc, hcp⟩ := hp
    intro hnil
    have hmem : c ∈ l.filter (fun c => c.problem = p) :=
      List.mem_filter.mpr ⟨hc, by simp [hcp]⟩
    rw [hnil] at hmem
    exact absurd hmem (List.not_mem_nil c)
  have hgc : groupedCandidates l p ≠ [] := by
    intro hx
    exact hfil (List.map_eq_nil_iff.mp hx)
  obtain ⟨k, b, hkb, hmax, hall, hpre⟩ := maxByConfidence_spec (groupedCandidates l p) hgc
  have hglookup : alookup p (groupByProblem l) = some (groupedCandidates l p) := by
    rw [alookup_groupByProblem, if_neg hfil]
    rfl
  have hagg : alookup p (aggregate_solutions l) = some b.solution := by
    calc alookup p (aggregate_solutions l)
        = (alookup p (groupByProblem l)).bind
            (fun cs => (maxByConfidence cs).map (fun b => b.solution)) :=
          alookup_filterMap_max p (groupByProblem l) (groupByProblem_groups_ne_nil l)
      _ = some b.solution := by rw [hglookup]; simp [hmax]
  refine ⟨rfl, k, b, hkb, hagg, ?_, ?_, hpre⟩
  · have hbmem : b ∈ groupedCandidates l p := by
      obtain ⟨hn, rfl⟩ := List.getElem?_eq_some.mp hkb
      exact List.getElem_mem hn
    simp only [groupedCandidates, List.mem_map, List.mem_filter] at hbmem
    obtain ⟨c, ⟨hcl, hcp⟩, hbc⟩ := hbmem
    exact ⟨c, hcl, by simpa using hcp, hbc.symm⟩
  · intro c hcl hcp
    have hmem : toGrouped c ∈ groupedCandidates l p := by
      simp only [groupedCandidates, List.mem_map]
      exact ⟨c, List.mem_filter.mpr ⟨hcl, by simp [hcp]⟩, rfl⟩
    exact hall (toGrouped c) hmem

/-- Witness for `aggregate_solutions_spec` on three candidates, two of
them sharing problem `1 1 4 6` with exactly tied confidences. -/
theorem aggregate_solutions_spec_witness :
    aggregate_solutions [] = [] ∧
    ∃ (k : Nat) (b : GroupedSolution),
      (groupedCandidates aggCands "1 1 4 6")[k]? = some b ∧
      alookup "1 1 4 6" (aggregate_solutions aggCands) = some b.solution ∧
      (∃ c ∈ aggCands, c.problem = "1 1 4 6" ∧ b = toGrouped c) ∧
      (∀ c ∈ aggCands, c.problem = "1 1 4 6" → c.confidence ≤ b.confidence) ∧
      (∀ (j : Nat), j < k → ∀ (x : GroupedSolution),
        (groupedCandidates aggCands "1 1 4 6")[j]? = some x →
          x.confidence < b.confidence) :=
  aggregate_solutions_spec aggCands "1 1 4 6"
    ⟨⟨"1 1 4 6", "(6 - 4) * (1 + 1)", "mcts_results", 0.7⟩,
      List.mem_cons_self _ _, rfl⟩

/-- C9 (intent of the code; see `itemsOfPayload` on the syntax error at
source line 72): a single-object payload is unwrapped through its
`"results"` field and processed exactly as a sequence payload would be;
consequently, in the round-trip scenario — `mcts_results/out.json`
holding one wrapped record for problem `1 1 4 6` with answer
`(6-4)*(1+1)`, and a canonical list with `1 1 4 6` at position 2 — the
emitted submission's row with id 2 carries solution `(6-4)*(1+1)`.

As written, the source cannot exhibit this behaviour at all: line 72
reads `elif isinstance data, dict):`, a missing opening parenthesis that
makes the whole of `format_kaggle_submission.py` fail to parse, so
running the formatter raises `SyntaxError` before any processing. -/
theorem extract_problem_solutions_roundtrip :
    (∀ (m : String) (items : List Json),
      extract_problem_solutions [(m, Json.obj [("results", Json.arr items)])] =
        extract_problem_solutions [(m, Json.arr items)]) ∧
    (formatter_main roundTripResults roundTripTable).wroteRows =
      some [⟨0, "3 3 8 8", "No solution found"⟩,
        ⟨1, "2 2 2 2", "No solution found"⟩,
        ⟨2, "1 1 4 6", "(6-4)*(1+1)"⟩] ∧
    ([⟨0, "3 3 8 8", "No solution found"⟩,
        ⟨1, "2 2 2 2", "No solution found"⟩,
        ⟨2, "1 1 4 6", "(6-4)*(1+1)"⟩] : List SubmissionRow)[2]? =
      some ⟨2, "1 1 4 6", "(6-4)*(1+1)"⟩ :=
  ⟨fun _ _ => rfl, rfl, rfl⟩
